import Mathlib

/-!
Shallow embedding of the Intcode virtual machine of `src/machine.rs`
(MizardX/AdventOfCode_2019).

Modelling conventions:
* Rust `i64` values are modelled as `Int` (the machine's arithmetic never
  relies on wraparound; Rust `%` and `/` on `i64` truncate toward zero, so
  they are modelled by `Int.tmod` and `Int.tdiv`).
* `Vec<Value>` memory is a `List Int`; `VecDeque<Value>` queues are
  `List Int` with the front at the head and `push_back` appending.
* Fallible operations return explicit result values; a Rust `panic!` /
  `.expect(..)` / out-of-contract `Vec` index is modelled by a dedicated
  `panic` constructor (or `Option.none` for `Machine.write`), distinct from
  the `Err(MachineError)` channel.
* The `log` field of `Machine` is omitted: it only gates `println!`
  debugging output and has no effect on the machine state.
-/

abbrev Value := Int

/-- `MachineError` from `src/machine.rs`. -/
inductive MachineError where
  | InvalidInstruction : Value → MachineError
  | InvalidParameterMode : Value → MachineError
  | EmptyInput : MachineError
  | Stopped : MachineError
deriving DecidableEq, Repr

/-- `ParameterMode` from `src/machine.rs`. -/
inductive ParameterMode where
  | Position : ParameterMode
  | Immediate : ParameterMode
  | Relative : ParameterMode
deriving DecidableEq, Repr

/-- `impl TryFrom<Value> for ParameterMode`: dispatch on `value % 10`
(Rust truncated remainder). -/
def ParameterMode.tryFrom (value : Value) : Except MachineError ParameterMode :=
  if Int.tmod value 10 = 0 then .ok .Position
  else if Int.tmod value 10 = 1 then .ok .Immediate
  else if Int.tmod value 10 = 2 then .ok .Relative
  else .error (.InvalidParameterMode value)

/-- `ArgumentBy` from `src/machine.rs`: a decoded operand. -/
inductive ArgumentBy where
  | Position : Value → ArgumentBy
  | Value : Value → ArgumentBy
  | Relative : Value → ArgumentBy
deriving DecidableEq, Repr

/-- `OpCode0` (nonary opcodes). -/
inductive OpCode0 where
  | Halt : OpCode0
deriving DecidableEq, Repr

/-- `OpCode1` (unary opcodes). -/
inductive OpCode1 where
  | Input : OpCode1
  | Output : OpCode1
  | AdjustRelativeBase : OpCode1
deriving DecidableEq, Repr

/-- `OpCode2` (binary opcodes). -/
inductive OpCode2 where
  | JumpIfTrue : OpCode2
  | JumpIfFalse : OpCode2
deriving DecidableEq, Repr

/-- `OpCode3` (trinary opcodes). -/
inductive OpCode3 where
  | Add : OpCode3
  | Mul : OpCode3
  | LessThan : OpCode3
  | Equals : OpCode3
deriving DecidableEq, Repr

/-- `OpCode` from `src/machine.rs`: an instruction shape with its
parameter modes. -/
inductive OpCode where
  | Nonary : OpCode0 → OpCode
  | Unary : OpCode1 → ParameterMode → OpCode
  | Binary : OpCode2 → ParameterMode → ParameterMode → OpCode
  | Trinary : OpCode3 → ParameterMode → ParameterMode → ParameterMode → OpCode
deriving DecidableEq, Repr

/-- `impl TryFrom<Value> for OpCode`: opcode is `value % 100`, the mode
digits are `value / 100 % 10`, `value / 1000 % 10`, `value / 10000 % 10`
(each handed to `ParameterMode::try_from`, which carries that sub-value in
its error). -/
def OpCode.tryFrom (value : Value) : Except MachineError OpCode :=
  let code := Int.tmod value 100
  if code = 1 ∨ code = 2 ∨ code = 7 ∨ code = 8 then do
    let op : OpCode3 :=
      if code = 1 then .Add else if code = 2 then .Mul
      else if code = 7 then .LessThan else .Equals
    let p1 ← ParameterMode.tryFrom (Int.tmod (Int.tdiv value 100) 10)
    let p2 ← ParameterMode.tryFrom (Int.tmod (Int.tdiv value 1000) 10)
    let p3 ← ParameterMode.tryFrom (Int.tmod (Int.tdiv value 10000) 10)
    pure (.Trinary op p1 p2 p3)
  else if code = 3 ∨ code = 4 ∨ code = 9 then do
    let op : OpCode1 :=
      if code = 3 then .Input else if code = 4 then .Output
      else .AdjustRelativeBase
    let p1 ← ParameterMode.tryFrom (Int.tmod (Int.tdiv value 100) 10)
    pure (.Unary op p1)
  else if code = 5 ∨ code = 6 then do
    let op : OpCode2 := if code = 5 then .JumpIfTrue else .JumpIfFalse
    let p1 ← ParameterMode.tryFrom (Int.tmod (Int.tdiv value 100) 10)
    let p2 ← ParameterMode.tryFrom (Int.tmod (Int.tdiv value 1000) 10)
    pure (.Binary op p1 p2)
  else if code = 99 then .ok (.Nonary .Halt)
  else .error (.InvalidInstruction value)

/-- `State` from `src/machine.rs`. -/
inductive State where
  | Running : State
  | Stopped : State
deriving DecidableEq, Repr

/-- `Machine` from `src/machine.rs` (the diagnostic `log` flag is omitted,
see the module comment). -/
structure Machine where
  memory : List Value
  ip : Value
  state : State
  inputs : List Value
  outputs : List Value
  relative_base : Value
deriving DecidableEq, Repr

/-- `Vec::resize(n, fill)`: truncate or extend with `fill` to length `n`. -/
def listResize (l : List Value) (n : Nat) (fill : Value) : List Value :=
  if l.length ≤ n then l ++ List.replicate (n - l.length) fill else l.take n

/-- `Machine::new(program)`. -/
def Machine.new (program : List Value) : Machine :=
  { memory := program
    ip := 0
    state := .Running
    inputs := []
    outputs := []
    relative_base := 0 }

/-- `Machine::read(index)`: `usize::try_from(index)` succeeds iff
`0 ≤ index`, then `memory.get(index)` defaults to 0 out of bounds. -/
def Machine.read (m : Machine) (index : Value) : Value :=
  if 0 ≤ index then
    match m.memory[index.toNat]? with
    | some mem => mem
    | none => 0
  else 0

/-- `Machine::read_relative(index)`. -/
def Machine.read_relative (m : Machine) (index : Value) : Value :=
  m.read (m.relative_base + index)

/-- `Machine::write(index, value)`: on a negative address the Rust code
panics (modelled by `none`); otherwise, if `index` is past the end, the
memory is first resized to `index + 1` — the Rust code passes `value`, not
0, as `Vec::resize`'s fill element — and then cell `index` is set. -/
def Machine.write (m : Machine) (index value : Value) : Option Machine :=
  if 0 ≤ index then
    let i := index.toNat
    let memory₁ :=
      if m.memory.length ≤ i then listResize m.memory (i + 1) value else m.memory
    some { m with memory := memory₁.set i value }
  else none

/-- `Machine::write_relative(index, value)`. -/
def Machine.write_relative (m : Machine) (index value : Value) : Option Machine :=
  m.write (m.relative_base + index) value

/-- `Machine::reset(program)`: resize the memory to the program's length
(zero fill), `copy_from_slice` the program over it (panics if the lengths
differ — unreachable here, kept for faithfulness), reset `ip`, `state` and
both queues.  The Rust code does not touch `relative_base`. -/
def Machine.reset (m : Machine) (program : List Value) : Machine :=
  let resized := listResize m.memory program.length 0
  { m with
    memory := if resized.length = program.length then program else resized
    ip := 0
    state := .Running
    inputs := []
    outputs := [] }

/-- `Machine::read_input()`: `inputs.pop_front().ok_or(EmptyInput)`,
together with the machine after the pop. -/
def Machine.read_input (m : Machine) : Except MachineError Value × Machine :=
  match m.inputs with
  | [] => (.error .EmptyInput, m)
  | v :: rest => (.ok v, { m with inputs := rest })

/-- `Machine::write_output(value)`. -/
def Machine.write_output (m : Machine) (value : Value) : Machine :=
  { m with outputs := m.outputs ++ [value] }

/-- `Machine::get_arg(offset, mode)`. -/
def Machine.get_arg (m : Machine) (offset : Value) (mode : ParameterMode) :
    ArgumentBy :=
  let value := m.read (m.ip + offset)
  match mode with
  | .Position => .Position value
  | .Immediate => .Value value
  | .Relative => .Relative value

/-- `ArgumentBy::read` (`Value` is written `Int`, its definition, since the
constructor `ArgumentBy.Value` shadows the abbreviation here). -/
def ArgumentBy.read (a : ArgumentBy) (m : Machine) : Int :=
  match a with
  | .Position index => m.read index
  | .Value val => val
  | .Relative index => m.read_relative index

/-- `ArgumentBy::write`: writing through an `Immediate` operand panics in
the Rust code (`none`); `Machine::write` itself panics on a negative
address. -/
def ArgumentBy.write (a : ArgumentBy) (value : Int) (m : Machine) :
    Option Machine :=
  match a with
  | .Position index => m.write index value
  | .Relative index => m.write_relative index value
  | .Value _ => none

/-- Result of one instruction's `execute`: `ok jump m'` is Rust's
`Ok(jump)` (new instruction pointer, if any) with the mutated machine,
`err` is `Err(e)` with the machine at the moment of the error, `panic`
models a Rust panic. -/
inductive ExecResult where
  | ok : Option Value → Machine → ExecResult
  | err : MachineError → Machine → ExecResult
  | panic : ExecResult
deriving DecidableEq, Repr

/-- `OpCode0::execute`. -/
def OpCode0.execute (op : OpCode0) (m : Machine) : ExecResult :=
  match op with
  | .Halt => .ok none { m with state := .Stopped }

/-- `OpCode1::execute`. -/
def OpCode1.execute (op : OpCode1) (arg1 : ArgumentBy) (m : Machine) :
    ExecResult :=
  match op with
  | .Input =>
    match m.read_input with
    | (.error e, m₁) => .err e m₁
    | (.ok value, m₁) =>
      match arg1.write value m₁ with
      | none => .panic
      | some m₂ => .ok none m₂
  | .Output => .ok none (m.write_output (arg1.read m))
  | .AdjustRelativeBase =>
    .ok none { m with relative_base := m.relative_base + arg1.read m }

/-- `OpCode2::execute` (takes `&Machine`, never mutates). -/
def OpCode2.execute (op : OpCode2) (arg1 arg2 : ArgumentBy) (m : Machine) :
    ExecResult :=
  match op with
  | .JumpIfTrue =>
    if arg1.read m ≠ 0 then .ok (some (arg2.read m)) m else .ok none m
  | .JumpIfFalse =>
    if arg1.read m = 0 then .ok (some (arg2.read m)) m else .ok none m

/-- `OpCode3::execute` (`Value::from(b)` is 1 for true, 0 for false). -/
def OpCode3.execute (op : OpCode3) (arg1 arg2 arg3 : ArgumentBy)
    (m : Machine) : ExecResult :=
  match op with
  | .Add =>
    match arg3.write (arg1.read m + arg2.read m) m with
    | none => .panic
    | some m₁ => .ok none m₁
  | .Mul =>
    match arg3.write (arg1.read m * arg2.read m) m with
    | none => .panic
    | some m₁ => .ok none m₁
  | .LessThan =>
    match arg3.write (if arg1.read m < arg2.read m then 1 else 0) m with
    | none => .panic
    | some m₁ => .ok none m₁
  | .Equals =>
    match arg3.write (if arg1.read m = arg2.read m then 1 else 0) m with
    | none => .panic
    | some m₁ => .ok none m₁

/-- Result of `Machine::step` and of the run loops that return
`Result<(), MachineError>`: `ok`/`err` carry the machine (`&mut self` in
Rust), `panic` models a Rust panic. -/
inductive Outcome where
  | ok : Machine → Outcome
  | err : MachineError → Machine → Outcome
  | panic : Outcome
deriving DecidableEq, Repr

/-- `Machine::step()`.  The state check mirrors Rust's early
`return Err(Stopped)`; `get_op` is inlined: it calls
`OpCode::try_from(...).expect("Invalid opcode")`, i.e. a decode failure
panics rather than surfacing the error.  After `execute`, the instruction
pointer becomes the returned jump target or `ip + 1 + arity`. -/
def Machine.step (m : Machine) : Outcome :=
  if m.state = State.Running then
    match OpCode.tryFrom (m.read m.ip) with
    | .error _ => .panic
    | .ok (.Nonary op) =>
      match op.execute m with
      | .ok jump m₁ => .ok { m₁ with ip := jump.getD (m₁.ip + 1) }
      | .err e m₁ => .err e m₁
      | .panic => .panic
    | .ok (.Unary op p1) =>
      match op.execute (m.get_arg 1 p1) m with
      | .ok jump m₁ => .ok { m₁ with ip := jump.getD (m₁.ip + 2) }
      | .err e m₁ => .err e m₁
      | .panic => .panic
    | .ok (.Binary op p1 p2) =>
      match op.execute (m.get_arg 1 p1) (m.get_arg 2 p2) m with
      | .ok jump m₁ => .ok { m₁ with ip := jump.getD (m₁.ip + 3) }
      | .err e m₁ => .err e m₁
      | .panic => .panic
    | .ok (.Trinary op p1 p2 p3) =>
      match op.execute (m.get_arg 1 p1) (m.get_arg 2 p2) (m.get_arg 3 p3) m with
      | .ok jump m₁ => .ok { m₁ with ip := jump.getD (m₁.ip + 4) }
      | .err e m₁ => .err e m₁
      | .panic => .panic
  else .err .Stopped m

/-- `Machine::run_until_stopped()`, with explicit fuel for the unbounded
`while`; `none` means the fuel ran out before the loop finished. -/
def Machine.run_until_stopped : Nat → Machine → Option Outcome
  | 0, _ => none
  | fuel + 1, m =>
    if m.state = State.Running then
      match m.step with
      | .ok m₁ => Machine.run_until_stopped fuel m₁
      | .err e m₁ => some (.err e m₁)
      | .panic => some .panic
    else some (.ok m)

/-- Result of `Machine::run_until_output()`
(`Result<Option<Value>, MachineError>`). -/
inductive OutputOutcome where
  | ok : Option Value → Machine → OutputOutcome
  | err : MachineError → Machine → OutputOutcome
  | panic : OutputOutcome
deriving DecidableEq, Repr

/-- `Machine::run_until_output()`: step while the output queue is empty,
then `Ok(outputs.pop_front())`.  Fuel as above. -/
def Machine.run_until_output : Nat → Machine → Option OutputOutcome
  | 0, _ => none
  | fuel + 1, m =>
    if m.outputs.isEmpty then
      match m.step with
      | .ok m₁ => Machine.run_until_output fuel m₁
      | .err e m₁ => some (.err e m₁)
      | .panic => some .panic
    else
      match m.outputs with
      | [] => some (.ok none m)
      | v :: rest => some (.ok (some v) { m with outputs := rest })

/-- `Machine::run_until_input()`: loop stepping; `Err(EmptyInput)` returns
`Ok(())`, any other error is returned unchanged.  Fuel as above. -/
def Machine.run_until_input : Nat → Machine → Option Outcome
  | 0, _ => none
  | fuel + 1, m =>
    match m.step with
    | .ok m₁ => Machine.run_until_input fuel m₁
    | .err .EmptyInput m₁ => some (.ok m₁)
    | .err e m₁ => some (.err e m₁)
    | .panic => some .panic

/-! ### Concrete machines used to instantiate theorems -/

/-- Memory `[1, 2]` grown by `write 4 7`: the gap cells hold 7. -/
def gapMachine : Machine :=
  { memory := [1, 2, 7, 7, 7]
    ip := 0
    state := .Running
    inputs := []
    outputs := []
    relative_base := 0 }

/-- The relative-base demonstration program. -/
def rbProg : List Value := [109, 1, 204, -1, 99]

/-- `Machine.new rbProg` run to halt: output `[109]`, relative base 1. -/
def rbEnd1 : Machine :=
  { memory := rbProg
    ip := 5
    state := .Stopped
    inputs := []
    outputs := [109]
    relative_base := 1 }

/-- `rbEnd1.reset rbProg`: everything reloaded but the relative base. -/
def rbAfterReset : Machine :=
  { memory := rbProg
    ip := 0
    state := .Running
    inputs := []
    outputs := []
    relative_base := 1 }

/-- `rbAfterReset` run to halt: output `[1]`, relative base 2. -/
def rbEnd2 : Machine :=
  { memory := rbProg
    ip := 5
    state := .Stopped
    inputs := []
    outputs := [1]
    relative_base := 2 }

/-- `Machine.new [99]` after one step: halted, `ip` advanced to 1. -/
def halted99 : Machine :=
  { memory := [99]
    ip := 1
    state := .Stopped
    inputs := []
    outputs := []
    relative_base := 0 }

/-- A stopped machine with one pending output. -/
def stoppedWithOutput : Machine :=
  { memory := [99]
    ip := 1
    state := .Stopped
    inputs := []
    outputs := [5]
    relative_base := 0 }

/-- `stoppedWithOutput` after `run_until_output` pops the 5. -/
def stoppedDrained : Machine :=
  { memory := [99]
    ip := 1
    state := .Stopped
    inputs := []
    outputs := []
    relative_base := 0 }

/-- A running machine whose first instruction is `Input` with an empty
input queue: the designed suspension point. -/
def inputBlocked : Machine := Machine.new [3, 0, 99]

/-- `Machine.new [1101, 2, 3, 0, 99]` after one step: `2 + 3` stored at 0,
`ip` advanced by 4. -/
def addStepped : Machine :=
  { memory := [5, 2, 3, 0, 99]
    ip := 4
    state := .Running
    inputs := []
    outputs := []
    relative_base := 0 }

/-- A machine about to execute a taken immediate-mode `JumpIfTrue`. -/
def jumpTaken : Machine := Machine.new [1105, 1, 7]

/-- `jumpTaken` after one step: the instruction pointer was redirected
to 7, the value of the jump's second parameter. -/
def jumpedM : Machine :=
  { memory := [1105, 1, 7]
    ip := 7
    state := .Running
    inputs := []
    outputs := []
    relative_base := 0 }

/-- Arity (number of parameters) of a decoded instruction, from its shape. -/
def OpCode.arity : OpCode → Nat
  | .Nonary _ => 0
  | .Unary _ _ => 1
  | .Binary _ _ _ => 2
  | .Trinary _ _ _ _ => 3

/-- A decoded instruction is a *taken jump* on machine `m` when it is
`JumpIfTrue` with a non-zero first operand or `JumpIfFalse` with a zero
first operand. -/
def OpCode.takenJump (op : OpCode) (m : Machine) : Bool :=
  match op with
  | .Binary .JumpIfTrue p1 _ => (m.get_arg 1 p1).read m ≠ 0
  | .Binary .JumpIfFalse p1 _ => (m.get_arg 1 p1).read m = 0
  | _ => false

/-! ### Helper lemmas about memory -/

theorem listResize_length (l : List Value) (n : Nat) (fill : Value) :
    (listResize l n fill).length = n := by
  unfold listResize
  split
  · simp only [List.length_append, List.length_replicate]
    omega
  · simp only [List.length_take]
    omega

theorem Machine.write_frame (m m₁ : Machine) (i v : Value)
    (h : m.write i v = some m₁) :
    m₁.ip = m.ip ∧ m₁.state = m.state ∧ m₁.inputs = m.inputs ∧
      m₁.outputs = m.outputs ∧ m₁.relative_base = m.relative_base := by
  unfold Machine.write at h
  split at h
  · simp only [Option.some.injEq] at h
    subst h
    exact ⟨rfl, rfl, rfl, rfl, rfl⟩
  · exact absurd h (by simp)

theorem ArgumentBy.arg_write_frame (a : ArgumentBy) (v : Int) (m m₁ : Machine)
    (h : a.write v m = some m₁) :
    m₁.ip = m.ip ∧ m₁.state = m.state ∧ m₁.inputs = m.inputs ∧
      m₁.outputs = m.outputs ∧ m₁.relative_base = m.relative_base := by
  cases a with
  | Position index => exact Machine.write_frame m m₁ index v h
  | Relative index => exact Machine.write_frame m m₁ (m.relative_base + index) v h
  | Value val => exact absurd h (by simp [ArgumentBy.write])

theorem Machine.write_read_self (m m₁ : Machine) (i v : Value)
    (h : m.write i v = some m₁) : m₁.read i = v := by
  unfold Machine.write at h
  split at h
  case isFalse => exact absurd h (by simp)
  case isTrue h0 =>
    simp only [Option.some.injEq] at h
    subst h
    unfold Machine.read
    rw [if_pos h0]
    have hlt :
        i.toNat <
          (if m.memory.length ≤ i.toNat
            then listResize m.memory (i.toNat + 1) v else m.memory).length := by
      split
      · rw [listResize_length]
        omega
      · omega
    rw [List.getElem?_set_self (by simpa using hlt)]

/-! ### Helper lemmas about decode -/

theorem ParameterMode.tryFrom_bad (d : Value) (h0 : 0 ≤ d) (h9 : d < 10)
    (hd0 : d ≠ 0) (hd1 : d ≠ 1) (hd2 : d ≠ 2) :
    ParameterMode.tryFrom d = .error (.InvalidParameterMode d) := by
  have hself : Int.tmod d 10 = d := by
    rw [Int.tmod_eq_emod h0 (by norm_num)]
    exact Int.emod_eq_of_lt h0 h9
  unfold ParameterMode.tryFrom
  rw [hself, if_neg hd0, if_neg hd1, if_neg hd2]

theorem digit_nonneg (v k : Value) (h0 : 0 ≤ v) (hk : 0 ≤ k) :
    0 ≤ Int.tmod (Int.tdiv v k) 10 :=
  Int.tmod_nonneg 10 (Int.tdiv_nonneg h0 hk)

theorem digit_lt_ten (v k : Value) (h0 : 0 ≤ v) (hk : 0 ≤ k) :
    Int.tmod (Int.tdiv v k) 10 < 10 := by
  rw [Int.tmod_eq_emod (Int.tdiv_nonneg h0 hk) (by norm_num)]
  exact Int.emod_lt_of_pos _ (by norm_num)

/-! ### Helper lemmas about single instructions -/

theorem OpCode1.execute_err_eq (op : OpCode1) (a : ArgumentBy)
    (m m₁ : Machine) (e : MachineError) (h : op.execute a m = .err e m₁) :
    e = .EmptyInput ∧ m₁ = m ∧ m.inputs = [] := by
  cases op with
  | Input =>
    cases hin : m.inputs with
    | nil =>
      simp only [OpCode1.execute, Machine.read_input, hin] at h
      simp only [ExecResult.err.injEq] at h
      exact ⟨h.1.symm, h.2.symm, rfl⟩
    | cons v rest =>
      simp only [OpCode1.execute, Machine.read_input, hin] at h
      cases hw : a.write v { m with inputs := rest } with
      | none => simp [hw] at h
      | some m₂ => simp [hw] at h
  | Output => simp [OpCode1.execute] at h
  | AdjustRelativeBase => simp [OpCode1.execute] at h

theorem OpCode2.execute2_ne_err (op : OpCode2) (a b : ArgumentBy)
    (m m₁ : Machine) (e : MachineError) : op.execute a b m ≠ .err e m₁ := by
  cases op <;> simp only [OpCode2.execute] <;> split <;> simp

theorem OpCode3.execute3_ne_err (op : OpCode3) (a b c : ArgumentBy)
    (m m₁ : Machine) (e : MachineError) : op.execute a b c m ≠ .err e m₁ := by
  cases op <;> simp only [OpCode3.execute] <;> split <;> simp

/-! ### Helper lemmas about `step` -/

theorem Machine.step_not_running (m : Machine) (h : m.state ≠ State.Running) :
    m.step = Outcome.err .Stopped m := by
  unfold Machine.step
  rw [if_neg h]

theorem Machine.step_err_unchanged (m m₁ : Machine) (e : MachineError)
    (h : m.step = Outcome.err e m₁) : m₁ = m := by
  by_cases hrun : m.state = State.Running
  · unfold Machine.step at h
    rw [if_pos hrun] at h
    cases hdec : OpCode.tryFrom (m.read m.ip) with
    | error e' => rw [hdec] at h; exact absurd h (by simp)
    | ok op =>
      rw [hdec] at h
      cases op with
      | Nonary op0 =>
        cases op0
        simp [OpCode0.execute] at h
      | Unary op1 p1 =>
        cases hexec : op1.execute (m.get_arg 1 p1) m with
        | ok j m₂ => simp [hexec] at h
        | panic => simp [hexec] at h
        | err e' m₂ =>
          simp only [hexec, Outcome.err.injEq] at h
          rcases OpCode1.execute_err_eq op1 _ m m₂ e' hexec with ⟨_, hm, _⟩
          rw [← h.2, hm]
      | Binary op2 p1 p2 =>
        cases hexec : op2.execute (m.get_arg 1 p1) (m.get_arg 2 p2) m with
        | ok j m₂ => simp [hexec] at h
        | panic => simp [hexec] at h
        | err e' m₂ => exact absurd hexec (OpCode2.execute2_ne_err op2 _ _ m m₂ e')
      | Trinary op3 p1 p2 p3 =>
        cases hexec :
            op3.execute (m.get_arg 1 p1) (m.get_arg 2 p2) (m.get_arg 3 p3) m with
        | ok j m₂ => simp [hexec] at h
        | panic => simp [hexec] at h
        | err e' m₂ => exact absurd hexec (OpCode3.execute3_ne_err op3 _ _ _ m m₂ e')
  · rw [Machine.step_not_running m hrun] at h
    simp only [Outcome.err.injEq] at h
    exact h.2.symm

theorem Machine.write_isSome (m : Machine) (index value : Value)
    (h : 0 ≤ index) : (m.write index value).isSome := by
  unfold Machine.write
  rw [if_pos h]
  rfl

/-! ### C10 -/

/-- C10: `Machine::read` is a total function of the machine and address (it
is pure, so the machine is unchanged); it returns 0 for every negative
address and for every address at or past the current memory length. -/
theorem read_out_of_range_eq_zero (m : Machine) (a : Value)
    (h : a < 0 ∨ m.memory.length ≤ a.toNat) : m.read a = 0 := by
  unfold Machine.read
  rcases h with h | h
  · rw [if_neg (not_le.mpr h)]
  · by_cases h0 : 0 ≤ a
    · rw [if_pos h0, List.getElem?_eq_none h]
    · rw [if_neg h0]

/-- C10 witness: a negative address and an address past the end both read 0
on a concrete machine. -/
theorem read_out_of_range_eq_zero_witness :
    (Machine.new [1, 2]).read (-5) = 0 ∧ (Machine.new [1, 2]).read 7 = 0 :=
  ⟨read_out_of_range_eq_zero (Machine.new [1, 2]) (-5) (by decide),
   read_out_of_range_eq_zero (Machine.new [1, 2]) 7 (by decide)⟩

/-! ### C8 -/

/-- C8: for every machine and non-negative address `A`, `write(A, V)`
succeeds and an immediate `read(A)` returns `V`; relative-mode read/write
at offset `O` is (by the code of `read_relative`/`write_relative`)
exactly position-mode read/write at address `relative_base + O`. -/
theorem addressing_round_trip (m m₁ : Machine) (A O V : Value)
    (hA : 0 ≤ A) (hw : m.write A V = some m₁) :
    m₁.read A = V ∧
    (m.write A V).isSome ∧
    m.read_relative O = m.read (m.relative_base + O) ∧
    m.write_relative O V = m.write (m.relative_base + O) V := by
  exact ⟨Machine.write_read_self m m₁ A V hw, Machine.write_isSome m A V hA,
    rfl, rfl⟩

/-- C8 witness: the round trip at address 4 with value 7 on a concrete
machine, and the relative/position agreement at offset 0. -/
theorem addressing_round_trip_witness :
    gapMachine.read 4 = 7 ∧
    ((Machine.new [1, 2]).write 4 7).isSome ∧
    (Machine.new [1, 2]).read_relative 0 =
      (Machine.new [1, 2]).read ((Machine.new [1, 2]).relative_base + 0) ∧
    (Machine.new [1, 2]).write_relative 0 7 =
      (Machine.new [1, 2]).write ((Machine.new [1, 2]).relative_base + 0) 7 :=
  addressing_round_trip (Machine.new [1, 2]) gapMachine 4 0 7
    (by decide) (by decide)

/-! ### C1 -/

/-- C1 (code-bug evidence): `Machine::write` extends memory with
`Vec::resize(index + 1, value)`, so the gap between the old length and the
written address is filled with the *written value*, not zero: after
writing 7 to address 4 of a machine with memory `[1, 2]`, address 3 (which
lies strictly between the old length 2 and 4) reads 7, not 0. -/
theorem write_gap_filled_with_written_value :
    Machine.write (Machine.new [1, 2]) 4 7 = some gapMachine ∧
    gapMachine.read 3 = 7 ∧
    (7 : Value) ≠ 0 :=
  ⟨by decide, by decide, by decide⟩

/-! ### C3 -/

/-- C3 (code-bug evidence): `Machine::reset` does not reset
`relative_base`.  Running `[109,1,204,-1,99]` to halt outputs `[109]` and
leaves the relative base at 1; after `reset` with the same program the
relative base is still 1 (while `new` would give 0), and the second run
outputs `[1]` instead of `[109]`. -/
theorem reset_leaks_relative_base :
    Machine.run_until_stopped 4 (Machine.new rbProg) =
      some (Outcome.ok rbEnd1) ∧
    rbEnd1.reset rbProg = rbAfterReset ∧
    rbAfterReset.relative_base ≠ (Machine.new rbProg).relative_base ∧
    Machine.run_until_stopped 4 rbAfterReset = some (Outcome.ok rbEnd2) ∧
    rbEnd2.outputs ≠ rbEnd1.outputs :=
  ⟨by decide, by decide, by decide, by decide, by decide⟩

/-! ### C5 -/

/-- C5 (amended, corrected): on a machine whose state is `Stopped`, `step`
fails with `Stopped` leaving the machine unchanged and `run_until_input`
fails with `Stopped`; but `run_until_output` fails with `Stopped` only
when the output queue is empty (a pending output is popped successfully),
and `run_until_stopped` returns success immediately without error. -/
theorem stopped_machine_run_ops (m : Machine) (fuel : Nat) (v : Value)
    (rest : List Value) (h : m.state = State.Stopped) :
    m.step = Outcome.err .Stopped m ∧
    Machine.run_until_input (fuel + 1) m = some (Outcome.err .Stopped m) ∧
    (m.outputs = [] → Machine.run_until_output (fuel + 1) m =
      some (OutputOutcome.err .Stopped m)) ∧
    (m.outputs = v :: rest → Machine.run_until_output (fuel + 1) m =
      some (OutputOutcome.ok (some v) { m with outputs := rest })) ∧
    Machine.run_until_stopped (fuel + 1) m = some (Outcome.ok m) := by
  have hrun : m.state ≠ State.Running := by rw [h]; simp
  have hstep : m.step = Outcome.err .Stopped m := Machine.step_not_running m hrun
  refine ⟨hstep, ?_, ?_, ?_, ?_⟩
  · simp [Machine.run_until_input, hstep]
  · intro hout
    simp [Machine.run_until_output, hout, hstep]
  · intro hout
    simp [Machine.run_until_output, hout]
  · simp [Machine.run_until_stopped, h]

/-- C5 counterexample: on an already-stopped machine,
`run_until_stopped` returns success (`Ok`), not the `Stopped` error, and
`run_until_output` also succeeds when an output is pending. -/
theorem run_on_stopped_succeeds_cex :
    Machine.run_until_stopped 1 halted99 = some (Outcome.ok halted99) ∧
    Machine.run_until_stopped 1 halted99 ≠
      some (Outcome.err .Stopped halted99) ∧
    Machine.run_until_output 1 stoppedWithOutput =
      some (OutputOutcome.ok (some 5) stoppedDrained) :=
  ⟨by decide, by decide, by decide⟩

/-- C5 witness: the amended behaviour at two concrete stopped machines. -/
theorem stopped_machine_run_ops_witness :
    halted99.step = Outcome.err .Stopped halted99 ∧
    Machine.run_until_input 1 halted99 =
      some (Outcome.err .Stopped halted99) ∧
    Machine.run_until_output 1 halted99 =
      some (OutputOutcome.err .Stopped halted99) ∧
    Machine.run_until_output 1 stoppedWithOutput =
      some (OutputOutcome.ok (some 5)
        { stoppedWithOutput with outputs := [] }) ∧
    Machine.run_until_stopped 1 halted99 = some (Outcome.ok halted99) := by
  have h1 := stopped_machine_run_ops halted99 0 0 [] rfl
  have h2 := stopped_machine_run_ops stoppedWithOutput 0 5 [] rfl
  exact ⟨h1.1, h1.2.1, h1.2.2.1 rfl, h2.2.2.2.1 rfl, h1.2.2.2.2⟩

/-! ### C4 -/

theorem run_until_output_no_ok_none (fuel : Nat) (m m₂ : Machine)
    (r : OutputOutcome) (h : Machine.run_until_output fuel m = some r) :
    r ≠ OutputOutcome.ok none m₂ := by
  induction fuel generalizing m with
  | zero => simp [Machine.run_until_output] at h
  | succ fuel ih =>
    simp only [Machine.run_until_output] at h
    by_cases hout : m.outputs.isEmpty
    · rw [if_pos hout] at h
      cases hstep : m.step with
      | ok m₁ =>
        rw [hstep] at h
        exact ih m₁ h
      | err e m₁ =>
        rw [hstep] at h
        simp only [Option.some.injEq] at h
        subst h
        simp
      | panic =>
        rw [hstep] at h
        simp only [Option.some.injEq] at h
        subst h
        simp
    · rw [if_neg hout] at h
      cases hl : m.outputs with
      | nil => rw [hl] at hout; simp at hout
      | cons v rest =>
        rw [hl] at h
        simp only [Option.some.injEq] at h
        subst h
        simp

/-- C4 (amended, corrected): `run_until_output` steps while the output
queue is empty and pops and returns the front output as success once one
is pending; but when the machine halts with no output pending, the next
loop iteration's `step` fails and the call returns the `Stopped` error —
the successful `None` result is never produced. -/
theorem run_until_output_behaviour (m m₁ m₂ : Machine) (fuel : Nat)
    (v : Value) (rest : List Value) (r : OutputOutcome) :
    (m.outputs = v :: rest → Machine.run_until_output (fuel + 1) m =
      some (OutputOutcome.ok (some v) { m with outputs := rest })) ∧
    (m.outputs = [] → m.step = Outcome.ok m₁ →
      Machine.run_until_output (fuel + 1) m =
        Machine.run_until_output fuel m₁) ∧
    (m.outputs = [] → m.state = State.Stopped →
      Machine.run_until_output (fuel + 1) m =
        some (OutputOutcome.err .Stopped m)) ∧
    (Machine.run_until_output fuel m = some r →
      r ≠ OutputOutcome.ok none m₂) := by
  refine ⟨?_, ?_, ?_, fun h => run_until_output_no_ok_none fuel m m₂ r h⟩
  · intro hout
    simp [Machine.run_until_output, hout]
  · intro hout hstep
    simp [Machine.run_until_output, hout, hstep]
  · intro hout hstop
    have hrun : m.state ≠ State.Running := by rw [hstop]; simp
    simp [Machine.run_until_output, hout, Machine.step_not_running m hrun]

/-- C4 counterexample: a machine that halts with no output pending makes
`run_until_output` return the `Stopped` error, not the successful
`None`. -/
theorem run_until_output_halt_errs_cex :
    Machine.run_until_output 2 (Machine.new [99]) =
      some (OutputOutcome.err .Stopped halted99) ∧
    Machine.run_until_output 2 (Machine.new [99]) ≠
      some (OutputOutcome.ok none halted99) :=
  ⟨by decide, by decide⟩

/-- C4 witness: the amended behaviour at concrete machines. -/
theorem run_until_output_behaviour_witness :
    Machine.run_until_output 1 stoppedWithOutput =
      some (OutputOutcome.ok (some 5)
        { stoppedWithOutput with outputs := [] }) ∧
    Machine.run_until_output 1 (Machine.new [99]) =
      Machine.run_until_output 0 halted99 ∧
    Machine.run_until_output 1 halted99 =
      some (OutputOutcome.err .Stopped halted99) ∧
    OutputOutcome.err MachineError.Stopped halted99 ≠
      OutputOutcome.ok none halted99 := by
  refine ⟨?_, ?_, ?_, ?_⟩
  · exact (run_until_output_behaviour stoppedWithOutput halted99 halted99 0 5
      [] OutputOutcome.panic).1 rfl
  · exact (run_until_output_behaviour (Machine.new [99]) halted99 halted99 0 0
      [] OutputOutcome.panic).2.1 rfl (by decide)
  · exact (run_until_output_behaviour halted99 halted99 halted99 0 0
      [] OutputOutcome.panic).2.2.1 rfl rfl
  · exact (run_until_output_behaviour halted99 halted99 halted99 1 0 []
      (OutputOutcome.err MachineError.Stopped halted99)).2.2.2 (by decide)

/-! ### C6 -/

/-- C6 (confirmed): `run_until_input` steps repeatedly; a step failing
with `EmptyInput` makes it return success (the suspension is not
propagated), and any other step error is returned to the caller
unchanged. -/
theorem run_until_input_suspension (m m₁ : Machine) (fuel : Nat)
    (e : MachineError) :
    (m.step = Outcome.err .EmptyInput m₁ →
      Machine.run_until_input (fuel + 1) m = some (Outcome.ok m₁)) ∧
    (m.step = Outcome.err e m₁ → e ≠ .EmptyInput →
      Machine.run_until_input (fuel + 1) m = some (Outcome.err e m₁)) ∧
    (m.step = Outcome.ok m₁ →
      Machine.run_until_input (fuel + 1) m =
        Machine.run_until_input fuel m₁) := by
  refine ⟨?_, ?_, ?_⟩
  · intro h
    simp [Machine.run_until_input, h]
  · intro h hne
    cases e <;> first
      | exact absurd rfl hne
      | simp [Machine.run_until_input, h]
  · intro h
    simp [Machine.run_until_input, h]

/-- C6 witness: a machine blocked on empty input suspends successfully; a
stopped machine's error is propagated unchanged. -/
theorem run_until_input_suspension_witness :
    inputBlocked.step = Outcome.err .EmptyInput inputBlocked ∧
    Machine.run_until_input 1 inputBlocked = some (Outcome.ok inputBlocked) ∧
    Machine.run_until_input 1 halted99 =
      some (Outcome.err .Stopped halted99) := by
  refine ⟨by decide, ?_, ?_⟩
  · exact (run_until_input_suspension inputBlocked inputBlocked 0
      MachineError.Stopped).1 (by decide)
  · exact (run_until_input_suspension halted99 halted99 0
      MachineError.Stopped).2.1 (by decide) (by decide)

/-! ### C7 -/

/-- C7 (amended, corrected): a step that fails with an error (`Stopped` or
`EmptyInput`) leaves the machine entirely unchanged — in particular a
machine suspended on `EmptyInput` re-executes the same `Input` instruction
when resumed; executing `Halt` leaves memory and the relative base
unchanged and sets the state to `Stopped`, but advances the instruction
pointer by 1. -/
theorem step_atomicity (m m₁ : Machine) (e : MachineError) :
    (m.step = Outcome.err e m₁ → m₁ = m) ∧
    (m.state = State.Running →
      OpCode.tryFrom (m.read m.ip) = .ok (.Nonary .Halt) →
      m.step = Outcome.ok { m with state := .Stopped, ip := m.ip + 1 }) := by
  refine ⟨Machine.step_err_unchanged m m₁ e, ?_⟩
  intro hrun hdec
  unfold Machine.step
  rw [if_pos hrun, hdec]
  rfl

/-- C7 counterexample: executing `Halt` does not leave the instruction
pointer unchanged — it advances it by 1. -/
theorem halt_advances_ip_cex :
    (Machine.new [99]).step = Outcome.ok halted99 ∧
    halted99.ip ≠ (Machine.new [99]).ip :=
  ⟨by decide, by decide⟩

/-- C7 witness: the suspension at a concrete blocked machine and the
`Halt` step at a concrete halting machine. -/
theorem step_atomicity_witness :
    inputBlocked = inputBlocked ∧
    (Machine.new [99]).step =
      Outcome.ok
        { Machine.new [99] with state := .Stopped, ip := (Machine.new [99]).ip + 1 } := by
  refine ⟨?_, ?_⟩
  · exact (step_atomicity inputBlocked inputBlocked MachineError.EmptyInput).1
      (by decide)
  · exact (step_atomicity (Machine.new [99]) halted99 MachineError.Stopped).2
      rfl rfl

/-! ### C9 -/

theorem step_ok_nonary_ip (m m₁ : Machine) (op0 : OpCode0)
    (hrun : m.state = State.Running)
    (hdec : OpCode.tryFrom (m.read m.ip) = .ok (.Nonary op0))
    (hstep : m.step = Outcome.ok m₁) : m₁.ip = m.ip + 1 := by
  unfold Machine.step at hstep
  rw [if_pos hrun, hdec] at hstep
  cases op0
  simp only [OpCode0.execute] at hstep
  simp only [Outcome.ok.injEq] at hstep
  rw [← hstep]
  simp

theorem OpCode1.execute1_ok_frame (op : OpCode1) (a : ArgumentBy)
    (m m₂ : Machine) (j : Option Value) (h : op.execute a m = .ok j m₂) :
    j = none ∧ m₂.ip = m.ip := by
  cases op with
  | Input =>
    cases hin : m.inputs with
    | nil =>
      simp only [OpCode1.execute, Machine.read_input, hin] at h
      exact ExecResult.noConfusion h
    | cons v rest =>
      simp only [OpCode1.execute, Machine.read_input, hin] at h
      cases hw : a.write v { m with inputs := rest } with
      | none =>
        simp only [hw] at h
        exact ExecResult.noConfusion h
      | some m₃ =>
        simp only [hw, ExecResult.ok.injEq] at h
        obtain ⟨hj, hm⟩ := h
        subst hm
        exact ⟨hj.symm, (ArgumentBy.arg_write_frame a v _ _ hw).1⟩
  | Output =>
    simp only [OpCode1.execute, ExecResult.ok.injEq] at h
    obtain ⟨hj, hm⟩ := h
    subst hm
    exact ⟨hj.symm, rfl⟩
  | AdjustRelativeBase =>
    simp only [OpCode1.execute, ExecResult.ok.injEq] at h
    obtain ⟨hj, hm⟩ := h
    subst hm
    exact ⟨hj.symm, rfl⟩

theorem OpCode3.execute3_ok_frame (op : OpCode3) (a b c : ArgumentBy)
    (m m₂ : Machine) (j : Option Value) (h : op.execute a b c m = .ok j m₂) :
    j = none ∧ m₂.ip = m.ip := by
  cases op with
  | Add =>
    cases hw : c.write (a.read m + b.read m) m with
    | none =>
      simp only [OpCode3.execute, hw] at h
      exact ExecResult.noConfusion h
    | some m₃ =>
      simp only [OpCode3.execute, hw, ExecResult.ok.injEq] at h
      obtain ⟨hj, hm⟩ := h
      subst hm
      exact ⟨hj.symm, (ArgumentBy.arg_write_frame c _ m _ hw).1⟩
  | Mul =>
    cases hw : c.write (a.read m * b.read m) m with
    | none =>
      simp only [OpCode3.execute, hw] at h
      exact ExecResult.noConfusion h
    | some m₃ =>
      simp only [OpCode3.execute, hw, ExecResult.ok.injEq] at h
      obtain ⟨hj, hm⟩ := h
      subst hm
      exact ⟨hj.symm, (ArgumentBy.arg_write_frame c _ m _ hw).1⟩
  | LessThan =>
    cases hw : c.write (if a.read m < b.read m then 1 else 0) m with
    | none =>
      simp only [OpCode3.execute, hw] at h
      exact ExecResult.noConfusion h
    | some m₃ =>
      simp only [OpCode3.execute, hw, ExecResult.ok.injEq] at h
      obtain ⟨hj, hm⟩ := h
      subst hm
      exact ⟨hj.symm, (ArgumentBy.arg_write_frame c _ m _ hw).1⟩
  | Equals =>
    cases hw : c.write (if a.read m = b.read m then 1 else 0) m with
    | none =>
      simp only [OpCode3.execute, hw] at h
      exact ExecResult.noConfusion h
    | some m₃ =>
      simp only [OpCode3.execute, hw, ExecResult.ok.injEq] at h
      obtain ⟨hj, hm⟩ := h
      subst hm
      exact ⟨hj.symm, (ArgumentBy.arg_write_frame c _ m _ hw).1⟩

theorem step_ok_unary_ip (m m₁ : Machine) (op1 : OpCode1)
    (p1 : ParameterMode) (hrun : m.state = State.Running)
    (hdec : OpCode.tryFrom (m.read m.ip) = .ok (.Unary op1 p1))
    (hstep : m.step = Outcome.ok m₁) : m₁.ip = m.ip + 2 := by
  unfold Machine.step at hstep
  rw [if_pos hrun, hdec] at hstep
  cases hexec : op1.execute (m.get_arg 1 p1) m with
  | ok j m₂ =>
    simp only [hexec, Outcome.ok.injEq] at hstep
    obtain ⟨hj, hip⟩ := OpCode1.execute1_ok_frame op1 _ m m₂ j hexec
    subst hj
    rw [← hstep]
    simp [hip]
  | err e m₂ =>
    simp only [hexec] at hstep
    exact Outcome.noConfusion hstep
  | panic =>
    simp only [hexec] at hstep
    exact Outcome.noConfusion hstep

theorem step_ok_binary_ip (m m₁ : Machine) (op2 : OpCode2)
    (p1 p2 : ParameterMode) (hrun : m.state = State.Running)
    (hdec : OpCode.tryFrom (m.read m.ip) = .ok (.Binary op2 p1 p2))
    (hstep : m.step = Outcome.ok m₁) :
    ((OpCode.Binary op2 p1 p2).takenJump m = false → m₁.ip = m.ip + 3) ∧
    ((OpCode.Binary op2 p1 p2).takenJump m = true →
      m₁.ip = (m.get_arg 2 p2).read m) := by
  unfold Machine.step at hstep
  rw [if_pos hrun, hdec] at hstep
  cases op2 with
  | JumpIfTrue =>
    by_cases hc : (m.get_arg 1 p1).read m = 0
    · simp only [OpCode2.execute, hc, ne_eq, not_true_eq_false, if_false,
        Outcome.ok.injEq] at hstep
      refine ⟨fun _ => ?_, fun htj => ?_⟩
      · rw [← hstep]
        simp
      · rw [OpCode.takenJump] at htj
        simp [hc] at htj
    · simp only [OpCode2.execute, ne_eq, hc, not_false_eq_true, if_true,
        Outcome.ok.injEq] at hstep
      refine ⟨fun htj => ?_, fun _ => ?_⟩
      · rw [OpCode.takenJump] at htj
        simp [hc] at htj
      · rw [← hstep]
        simp
  | JumpIfFalse =>
    by_cases hc : (m.get_arg 1 p1).read m = 0
    · simp only [OpCode2.execute, hc, if_true, Outcome.ok.injEq] at hstep
      refine ⟨fun htj => ?_, fun _ => ?_⟩
      · rw [OpCode.takenJump] at htj
        simp [hc] at htj
      · rw [← hstep]
        simp
    · simp only [OpCode2.execute, hc, if_false, Outcome.ok.injEq] at hstep
      refine ⟨fun _ => ?_, fun htj => ?_⟩
      · rw [← hstep]
        simp
      · rw [OpCode.takenJump] at htj
        simp [hc] at htj

theorem step_ok_trinary_ip (m m₁ : Machine) (op3 : OpCode3)
    (p1 p2 p3 : ParameterMode) (hrun : m.state = State.Running)
    (hdec : OpCode.tryFrom (m.read m.ip) = .ok (.Trinary op3 p1 p2 p3))
    (hstep : m.step = Outcome.ok m₁) : m₁.ip = m.ip + 4 := by
  unfold Machine.step at hstep
  rw [if_pos hrun, hdec] at hstep
  cases hexec :
      op3.execute (m.get_arg 1 p1) (m.get_arg 2 p2) (m.get_arg 3 p3) m with
  | ok j m₂ =>
    simp only [hexec, Outcome.ok.injEq] at hstep
    obtain ⟨hj, hip⟩ := OpCode3.execute3_ok_frame op3 _ _ _ m m₂ j hexec
    subst hj
    rw [← hstep]
    simp [hip]
  | err e m₂ =>
    simp only [hexec] at hstep
    exact Outcome.noConfusion hstep
  | panic =>
    simp only [hexec] at hstep
    exact Outcome.noConfusion hstep

/-- C9 (confirmed): after every successfully executed instruction other
than a taken jump, the instruction pointer equals its old value plus
`1 + arity`; a taken `JumpIfTrue`/`JumpIfFalse` instead sets it to the
value read from the jump's second parameter. -/
theorem ip_advance (m m₁ : Machine) (op : OpCode)
    (hdec : OpCode.tryFrom (m.read m.ip) = .ok op)
    (hstep : m.step = Outcome.ok m₁) :
    (op.takenJump m = false → m₁.ip = m.ip + 1 + op.arity) ∧
    (∀ op2 p1 p2, op = OpCode.Binary op2 p1 p2 → op.takenJump m = true →
      m₁.ip = (m.get_arg 2 p2).read m) := by
  have hrun : m.state = State.Running := by
    by_contra hne
    rw [Machine.step_not_running m hne] at hstep
    exact Outcome.noConfusion hstep
  cases op with
  | Nonary op0 =>
    refine ⟨fun _ => ?_, fun op2 p1 p2 hop => absurd hop (by simp)⟩
    rw [step_ok_nonary_ip m m₁ op0 hrun hdec hstep]
    simp [OpCode.arity]
  | Unary op1 p1 =>
    refine ⟨fun _ => ?_, fun op2 p1' p2' hop => absurd hop (by simp)⟩
    rw [step_ok_unary_ip m m₁ op1 p1 hrun hdec hstep]
    simp [OpCode.arity]
    ring
  | Binary op2 p1 p2 =>
    have h3 := step_ok_binary_ip m m₁ op2 p1 p2 hrun hdec hstep
    refine ⟨fun htj => ?_, fun op2' p1' p2' hop htj => ?_⟩
    · rw [h3.1 htj]
      simp [OpCode.arity]
      ring
    · injection hop with e1 e2 e3
      subst e1
      subst e2
      subst e3
      exact h3.2 htj
  | Trinary op3 p1 p2 p3 =>
    refine ⟨fun _ => ?_, fun op2 p1' p2' hop => absurd hop (by simp)⟩
    rw [step_ok_trinary_ip m m₁ op3 p1 p2 p3 hrun hdec hstep]
    simp [OpCode.arity]
    ring

/-- C9 witness: an `Add` advances the pointer by `1 + 3`; a taken
immediate-mode `JumpIfTrue` redirects it to its second parameter. -/
theorem ip_advance_witness :
    addStepped.ip = (Machine.new [1101, 2, 3, 0, 99]).ip + 1 +
      (OpCode.Trinary OpCode3.Add .Immediate .Immediate .Position).arity ∧
    jumpedM.ip = (jumpTaken.get_arg 2 .Immediate).read jumpTaken := by
  constructor
  · exact (ip_advance (Machine.new [1101, 2, 3, 0, 99]) addStepped
      (OpCode.Trinary OpCode3.Add .Immediate .Immediate .Position)
      rfl (by decide)).1 (by decide)
  · exact (ip_advance jumpTaken jumpedM
      (OpCode.Binary OpCode2.JumpIfTrue .Immediate .Immediate)
      rfl (by decide)).2 OpCode2.JumpIfTrue .Immediate .Immediate rfl
      (by decide)

/-! ### C2 -/

theorem paramMode_tryFrom_good (d : Value) (h : d = 0 ∨ d = 1 ∨ d = 2) :
    ∃ p, ParameterMode.tryFrom d = .ok p := by
  rcases h with rfl | rfl | rfl
  · exact ⟨.Position, rfl⟩
  · exact ⟨.Immediate, rfl⟩
  · exact ⟨.Relative, rfl⟩

/-- C2 (amended, corrected): decoding an instruction word whose opcode
component (`value % 100`, truncated remainder) is outside the recognized
set fails with `InvalidInstruction(value)`; decoding a word with a
recognized opcode whose first out-of-range consumed parameter-mode digit
is `d` fails with `InvalidParameterMode(d)` (the digit sub-value, not the
whole word); but `step` on a Running machine does not return these errors
to the caller: `get_op` calls `.expect(..)` on the decode result, so any
decode failure aborts the process (a panic), which the embedding records
as the `panic` outcome. -/
theorem decode_errors_and_step_panics (v d1 d2 d3 : Value) (m : Machine)
    (e : MachineError)
    (hd1 : d1 = Int.tmod (Int.tdiv v 100) 10)
    (hd2 : d2 = Int.tmod (Int.tdiv v 1000) 10)
    (hd3 : d3 = Int.tmod (Int.tdiv v 10000) 10) :
    (Int.tmod v 100 ∉ ([1, 2, 3, 4, 5, 6, 7, 8, 9, 99] : List Value) →
      OpCode.tryFrom v = .error (.InvalidInstruction v)) ∧
    (0 ≤ v →
      Int.tmod v 100 ∈ ([1, 2, 3, 4, 5, 6, 7, 8, 9] : List Value) →
      d1 ∉ ([0, 1, 2] : List Value) →
      OpCode.tryFrom v = .error (.InvalidParameterMode d1)) ∧
    (0 ≤ v →
      Int.tmod v 100 ∈ ([1, 2, 5, 6, 7, 8] : List Value) →
      d1 ∈ ([0, 1, 2] : List Value) → d2 ∉ ([0, 1, 2] : List Value) →
      OpCode.tryFrom v = .error (.InvalidParameterMode d2)) ∧
    (0 ≤ v →
      Int.tmod v 100 ∈ ([1, 2, 7, 8] : List Value) →
      d1 ∈ ([0, 1, 2] : List Value) → d2 ∈ ([0, 1, 2] : List Value) →
      d3 ∉ ([0, 1, 2] : List Value) →
      OpCode.tryFrom v = .error (.InvalidParameterMode d3)) ∧
    (m.state = State.Running → m.read m.ip = v →
      OpCode.tryFrom v = .error e → m.step = Outcome.panic) := by
  refine ⟨?_, ?_, ?_, ?_, ?_⟩
  · intro hnot
    simp only [List.mem_cons, List.not_mem_nil, or_false] at hnot
    push_neg at hnot
    obtain ⟨h1, h2, h3, h4, h5, h6, h7, h8, h9, h99⟩ := hnot
    simp only [OpCode.tryFrom]
    rw [if_neg (by simp [h1, h2, h7, h8]), if_neg (by simp [h3, h4, h9]),
      if_neg (by simp [h5, h6]), if_neg h99]
  · intro h0 hcode hbad
    simp only [List.mem_cons, List.not_mem_nil, or_false] at hbad
    push_neg at hbad
    have hb : ParameterMode.tryFrom d1 = .error (.InvalidParameterMode d1) :=
      ParameterMode.tryFrom_bad d1
        (hd1 ▸ digit_nonneg v 100 h0 (by norm_num))
        (hd1 ▸ digit_lt_ten v 100 h0 (by norm_num))
        hbad.1 hbad.2.1 hbad.2.2
    simp only [List.mem_cons, List.not_mem_nil, or_false] at hcode
    rcases hcode with hc | hc | hc | hc | hc | hc | hc | hc | hc <;>
      · simp only [OpCode.tryFrom, hc, ← hd1, hb]
        rfl
  · intro h0 hcode hgood hbad
    simp only [List.mem_cons, List.not_mem_nil, or_false] at hbad hgood
    push_neg at hbad
    obtain ⟨p1, hp1⟩ := paramMode_tryFrom_good d1 hgood
    have hb : ParameterMode.tryFrom d2 = .error (.InvalidParameterMode d2) :=
      ParameterMode.tryFrom_bad d2
        (hd2 ▸ digit_nonneg v 1000 h0 (by norm_num))
        (hd2 ▸ digit_lt_ten v 1000 h0 (by norm_num))
        hbad.1 hbad.2.1 hbad.2.2
    simp only [List.mem_cons, List.not_mem_nil, or_false] at hcode
    rcases hcode with hc | hc | hc | hc | hc | hc <;>
      · simp only [OpCode.tryFrom, hc, ← hd1, ← hd2, hp1, hb]
        rfl
  · intro h0 hcode hgood1 hgood2 hbad
    simp only [List.mem_cons, List.not_mem_nil, or_false] at hbad hgood1 hgood2
    push_neg at hbad
    obtain ⟨p1, hp1⟩ := paramMode_tryFrom_good d1 hgood1
    obtain ⟨p2, hp2⟩ := paramMode_tryFrom_good d2 hgood2
    have hb : ParameterMode.tryFrom d3 = .error (.InvalidParameterMode d3) :=
      ParameterMode.tryFrom_bad d3
        (hd3 ▸ digit_nonneg v 10000 h0 (by norm_num))
        (hd3 ▸ digit_lt_ten v 10000 h0 (by norm_num))
        hbad.1 hbad.2.1 hbad.2.2
    simp only [List.mem_cons, List.not_mem_nil, or_false] at hcode
    rcases hcode with hc | hc | hc | hc <;>
      · simp only [OpCode.tryFrom, hc, ← hd1, ← hd2, ← hd3, hp1, hp2, hb]
        rfl
  · intro hrun hread herr
    unfold Machine.step
    rw [if_pos hrun, hread, herr]

/-- C2 counterexample: on a Running machine whose instruction word fails
to decode, `step` panics (modelled as the `panic` outcome); it does not
return the decode error value to the caller. -/
theorem step_decode_error_panics_cex :
    Machine.step (Machine.new [0]) = Outcome.panic ∧
    Machine.step (Machine.new [0]) ≠
      Outcome.err (.InvalidInstruction 0) (Machine.new [0]) ∧
    Machine.step (Machine.new [302]) = Outcome.panic ∧
    Machine.step (Machine.new [302]) ≠
      Outcome.err (.InvalidParameterMode 3) (Machine.new [302]) ∧
    Machine.step (Machine.new [302]) ≠
      Outcome.err (.InvalidParameterMode 302) (Machine.new [302]) :=
  ⟨by decide, by decide, by decide, by decide, by decide⟩

/-- C2 witness: each decode-failure shape at a concrete instruction word,
and the panic of `step` at one of them. -/
theorem decode_errors_and_step_panics_witness :
    OpCode.tryFrom 85 = .error (.InvalidInstruction 85) ∧
    OpCode.tryFrom 302 = .error (.InvalidParameterMode 3) ∧
    OpCode.tryFrom 3102 = .error (.InvalidParameterMode 3) ∧
    OpCode.tryFrom 31001 = .error (.InvalidParameterMode 3) ∧
    Machine.step (Machine.new [85]) = Outcome.panic := by
  refine ⟨?_, ?_, ?_, ?_, ?_⟩
  · exact (decode_errors_and_step_panics 85 0 0 0 (Machine.new [85])
      (.InvalidInstruction 85) (by decide) (by decide) (by decide)).1
      (by decide)
  · exact (decode_errors_and_step_panics 302 3 0 0 (Machine.new [302])
      (.InvalidParameterMode 3) (by decide) (by decide) (by decide)).2.1
      (by decide) (by decide) (by decide)
  · exact (decode_errors_and_step_panics 3102 1 3 0 (Machine.new [3102])
      (.InvalidParameterMode 3) (by decide) (by decide) (by decide)).2.2.1
      (by decide) (by decide) (by decide) (by decide)
  · exact (decode_errors_and_step_panics 31001 0 1 3 (Machine.new [31001])
      (.InvalidParameterMode 3) (by decide) (by decide) (by decide)).2.2.2.1
      (by decide) (by decide) (by decide) (by decide) (by decide)
  · exact (decode_errors_and_step_panics 85 0 0 0 (Machine.new [85])
      (.InvalidInstruction 85) (by decide) (by decide)
      (by decide)).2.2.2.2 rfl (by decide) rfl
